import Mathlib

/-!
Shallow embedding of the adaptive arithmetic-drill core of MathTrainingLabs:
the stats/leveling state machine, the question generator, the weakest-skill
selector (src/lib/math, shipped here as an unnamed source file) and the
mistake ledger (src/app/page.tsx).  JavaScript numbers are modelled as `Int`
where the code only does integer-exact arithmetic (levels, streaks, times)
and as `ℚ` where it divides (accuracy scores).  The ambient randomness
(operand draws, fresh ids, `Date.now()`) is injected as explicit parameters.
-/

/-- The four drilled skills (`type SkillKey = "add" | "sub" | "mul" | "div"`). -/
inductive SkillKey where
  | add
  | sub
  | mul
  | div
deriving DecidableEq, Repr

/-- The string value of a `SkillKey` in the source (it is a string union type). -/
def SkillKey.str : SkillKey → String
  | .add => "add"
  | .sub => "sub"
  | .mul => "mul"
  | .div => "div"

/-- `interface Result { correct: boolean; ms: number }`. -/
structure Result where
  correct : Bool
  ms : Int
deriving DecidableEq, Repr

/-- `interface SkillStats { level; streak; mistakeStreak; history }`. -/
structure SkillStats where
  level : Int
  streak : Nat
  mistakeStreak : Nat
  history : List Result
deriving DecidableEq, Repr

/-- `type Stats = Record<SkillKey, SkillStats>`: one field per skill key. -/
structure Stats where
  add : SkillStats
  sub : SkillStats
  mul : SkillStats
  div : SkillStats
deriving DecidableEq, Repr

/-- Record lookup `stats[skill]`. -/
def Stats.get (s : Stats) : SkillKey → SkillStats
  | .add => s.add
  | .sub => s.sub
  | .mul => s.mul
  | .div => s.div

/-- Record update `{ ...stats, [skill]: v }`. -/
def Stats.set (s : Stats) (k : SkillKey) (v : SkillStats) : Stats :=
  match k with
  | .add => { s with add := v }
  | .sub => { s with sub := v }
  | .mul => { s with mul := v }
  | .div => { s with div := v }

/-- `interface LevelSpec { minA?; maxA; minB?; maxB; allowNegative? }`;
optional fields become `Option`, `none` when absent from the table literal. -/
structure LevelSpec where
  minA : Option Int := none
  maxA : Int
  minB : Option Int := none
  maxB : Int
  allowNegative : Option Bool := none
deriving DecidableEq, Repr

/-- `const MAX_HISTORY = 12`. -/
def MAX_HISTORY : Nat := 12

/-- `const MAX_MISTAKES = 50` (from page.tsx). -/
def MAX_MISTAKES : Nat := 50

/-- The static `LEVELS` table, transcribed entry by entry. -/
def LEVELS : SkillKey → List LevelSpec
  | .add =>
    [ { maxA := 10, maxB := 10 },
      { maxA := 20, maxB := 20 },
      { maxA := 30, maxB := 30 },
      { maxA := 50, maxB := 50 },
      { maxA := 75, maxB := 75 },
      { maxA := 100, maxB := 100 },
      { maxA := 150, maxB := 150 },
      { maxA := 250, maxB := 250 },
      { maxA := 500, maxB := 500 },
      { maxA := 1000, maxB := 1000 },
      { maxA := 1500, maxB := 1500 },
      { maxA := 2000, maxB := 2000 } ]
  | .sub =>
    [ { maxA := 10, maxB := 10 },
      { maxA := 20, maxB := 20 },
      { maxA := 30, maxB := 30 },
      { maxA := 50, maxB := 50 },
      { maxA := 75, maxB := 75 },
      { maxA := 100, maxB := 100 },
      { maxA := 150, maxB := 150 },
      { maxA := 250, maxB := 250 },
      { maxA := 500, maxB := 500 },
      { maxA := 1000, maxB := 1000 },
      { maxA := 1500, maxB := 1500 },
      { maxA := 2000, maxB := 2000 } ]
  | .mul =>
    [ { maxA := 5, maxB := 5 },
      { maxA := 9, maxB := 9 },
      { maxA := 12, maxB := 12 },
      { maxA := 15, maxB := 15 },
      { maxA := 20, maxB := 20 },
      { maxA := 25, maxB := 25 },
      { maxA := 30, maxB := 30 },
      { maxA := 40, maxB := 40 },
      { maxA := 50, maxB := 50 },
      { maxA := 60, maxB := 60 },
      { maxA := 75, maxB := 75 },
      { maxA := 90, maxB := 90 } ]
  | .div =>
    [ { minA := some 1, maxA := 5, minB := some 0, maxB := 5 },
      { minA := some 1, maxA := 9, minB := some 0, maxB := 9 },
      { minA := some 1, maxA := 12, minB := some 0, maxB := 12 },
      { minA := some 2, maxA := 15, minB := some 0, maxB := 12 },
      { minA := some 2, maxA := 20, minB := some 0, maxB := 15 },
      { minA := some 2, maxA := 25, minB := some 0, maxB := 20 },
      { minA := some 3, maxA := 30, minB := some 0, maxB := 25 },
      { minA := some 3, maxA := 40, minB := some 0, maxB := 30 },
      { minA := some 4, maxA := 50, minB := some 0, maxB := 40 },
      { minA := some 5, maxA := 60, minB := some 0, maxB := 50 },
      { minA := some 6, maxA := 75, minB := some 0, maxB := 60 },
      { minA := some 8, maxA := 90, minB := some 0, maxB := 70 } ]

/-- `export const MAX_LEVEL = LEVELS.add.length`. -/
def MAX_LEVEL : Nat := (LEVELS SkillKey.add).length

/-- `const SKILL_LIST: SkillKey[] = ["add", "sub", "mul", "div"]`. -/
def SKILL_LIST : List SkillKey := [.add, .sub, .mul, .div]

/-- `const clamp = (value, min, max) => Math.min(Math.max(value, min), max)`. -/
def clamp (value lo hi : Int) : Int := min (max value lo) hi

/-- `getTargetMs(level) = clamp(6000 - level * 300, 2400, 6000)`. -/
def getTargetMs (level : Int) : Int := clamp (6000 - level * 300) 2400 6000

/-- `createDefaultStats()`: all skills at level 1, zero streaks, empty history. -/
def createDefaultStats : Stats :=
  { add := { level := 1, streak := 0, mistakeStreak := 0, history := [] }
  , sub := { level := 1, streak := 0, mistakeStreak := 0, history := [] }
  , mul := { level := 1, streak := 0, mistakeStreak := 0, history := [] }
  , div := { level := 1, streak := 0, mistakeStreak := 0, history := [] } }

/-- The body of `updateStats` acting on the selected skill's `SkillStats`
(`current`).  `[...history, {correct, ms}].slice(-MAX_HISTORY)` is the final
`MAX_HISTORY` entries of the appended list, i.e. dropping
`length - MAX_HISTORY` from the front (`Nat` subtraction truncates at 0,
matching `slice`'s behavior on short lists).  The two sequential `if`
statements of the source are transcribed one after the other: the second
overwrites `nextLevel` with `clamp(current.level - 1, ...)` when it fires,
exactly as the source does. -/
def stepSkill (current : SkillStats) (correct : Bool) (ms : Int) (levelMax : Int) :
    SkillStats :=
  let appended := current.history ++ [{ correct := correct, ms := ms }]
  let nextHistory := appended.drop (appended.length - MAX_HISTORY)
  let nextStreak : Nat := if correct then current.streak + 1 else 0
  let nextMistakeStreak : Nat := if correct then 0 else current.mistakeStreak + 1
  let upFires : Bool :=
    correct && decide (3 ≤ nextStreak) && decide (ms ≤ getTargetMs current.level)
  let nextLevel1 := if upFires then clamp (current.level + 1) 1 levelMax else current.level
  let leveledUp : Bool := if upFires then decide (nextLevel1 ≠ current.level) else false
  let downFires : Bool := !correct && decide (2 ≤ nextMistakeStreak)
  let nextLevel2 := if downFires then clamp (current.level - 1) 1 levelMax else nextLevel1
  let leveledDown : Bool := if downFires then decide (nextLevel2 ≠ current.level) else false
  { level := nextLevel2
  , streak := if correct && !leveledUp then nextStreak else 0
  , mistakeStreak := if !correct && !leveledDown then nextMistakeStreak else 0
  , history := nextHistory }

/-- `updateStats(stats, skill, correct, ms)`: returns a new `Stats` with the
selected skill replaced (`{ ...stats, [skill]: ... }`);
`levelMax = LEVELS[skill].length`. -/
def updateStats (stats : Stats) (skill : SkillKey) (correct : Bool) (ms : Int) : Stats :=
  stats.set skill
    (stepSkill (stats.get skill) correct ms ((LEVELS skill).length : Int))

/-- Applying a sequence of results, each a `(skill, correct, ms)` triple,
starting from some `Stats` (reachability via `updateStats`). -/
def applyUpdates (s : Stats) (us : List (SkillKey × Bool × Int)) : Stats :=
  us.foldl (fun acc u => updateStats acc u.1 u.2.1 u.2.2) s

/-- At most one of the two streak counters is nonzero, for every skill. -/
def atMostOneStreak (s : Stats) : Prop :=
  ∀ k, (s.get k).streak = 0 ∨ (s.get k).mistakeStreak = 0

/-- A stats value with `sub` at level 2, used to instantiate level-down. -/
def levelTwoStats : Stats :=
  { createDefaultStats with
    sub := { level := 2, streak := 0, mistakeStreak := 0, history := [] } }

/-- A stats value whose `add` history is already full (12 entries). -/
def fullHistoryStats : Stats :=
  { createDefaultStats with
    add := { level := 3, streak := 0, mistakeStreak := 0,
             history := List.replicate 12 (Result.mk true 100) } }

/-- A stats value with `div` already at the maximum level and a running
streak of 2, so the witnessed update is a qualifying third fast correct. -/
def maxLevelStats : Stats :=
  { createDefaultStats with
    div := { level := 12, streak := 2, mistakeStreak := 0, history := [] } }

/-- `getLevelSpec(skill, level)`: clamps the 1-based level into the table
range before indexing (`specs[clamp(level - 1, 0, specs.length - 1)]`).  The
`getD` default is never reached since the clamped index is in range. -/
def getLevelSpec (skill : SkillKey) (level : Int) : LevelSpec :=
  (LEVELS skill).getD (clamp (level - 1) 0 ((LEVELS skill).length - 1)).toNat
    { maxA := 0, maxB := 0 }

/-- `interface Question { id; text; answer; skill; level }`. -/
structure Question where
  id : String
  text : String
  answer : Int
  skill : SkillKey
  level : Int
deriving DecidableEq, Repr

/-- `generateQuestion(skill, level, options)`.  The source draws operand
`a ∈ [minA, maxA]` and `b ∈ [minB, maxB]` uniformly via `randomInt` and a
fresh random id suffix; the draws `a`, `b` and the id suffix `uid` are
injected as parameters (the randomness made explicit).  `opts` models
`options?.allowNegative`: `none` when the options object or the field is
absent. -/
def generateQuestion (skill : SkillKey) (level : Int) (opts : Option Bool)
    (a b : Int) (uid : String) : Question :=
  let spec := getLevelSpec skill level
  match skill with
  | .add =>
    { id := skill.str ++ "-" ++ uid
    , text := toString a ++ " + " ++ toString b
    , answer := a + b, skill := skill, level := level }
  | .sub =>
    let allowNegative := opts.getD (spec.allowNegative.getD false)
    let high := if allowNegative then a else max a b
    let low := if allowNegative then b else min a b
    { id := skill.str ++ "-" ++ uid
    , text := toString high ++ " - " ++ toString low
    , answer := high - low, skill := skill, level := level }
  | .mul =>
    { id := skill.str ++ "-" ++ uid
    , text := toString a ++ " x " ++ toString b
    , answer := a * b, skill := skill, level := level }
  | .div =>
    let divisor := max 1 a
    let quotient := b
    let dividend := divisor * quotient
    { id := skill.str ++ "-" ++ uid
    , text := toString dividend ++ " / " ++ toString divisor
    , answer := quotient, skill := skill, level := level }

/-- The `reduce` inside `accuracyFromHistory` counts the correct entries. -/
def correctCount (history : List Result) : Nat :=
  (history.filter (fun r => r.correct)).length

/-- `accuracyFromHistory`: explicit 0 on an empty history, otherwise the
fraction of correct entries. -/
def accuracyFromHistory (history : List Result) : ℚ :=
  if history.length = 0 then 0
  else (correctCount history : ℚ) / (history.length : ℚ)

/-- The per-skill score used by `getWeakestSkill` (and `pickSkill`): history
accuracy, or the neutral default 0.55 on an empty history. -/
def skillScore (stats : Stats) (skill : SkillKey) : ℚ :=
  if (stats.get skill).history.length = 0 then 0.55
  else accuracyFromHistory (stats.get skill).history

/-- `getWeakestSkill(stats)`: the `forEach` loop over `SKILL_LIST`, carrying
`(weakest, weakestScore)` initialised to `(SKILL_LIST[0], 1)` and replacing
only on a strictly smaller score. -/
def getWeakestSkill (stats : Stats) : SkillKey :=
  (SKILL_LIST.foldl
    (fun acc skill =>
      if skillScore stats skill < acc.2 then (skill, skillScore stats skill)
      else acc)
    (SKILL_LIST.headD SkillKey.add, (1 : ℚ))).1

/-- Position of a skill in the fixed `SKILL_LIST` order. -/
def skillIndex : SkillKey → Nat
  | .add => 0
  | .sub => 1
  | .mul => 2
  | .div => 3

/-- `type MistakeItem` from page.tsx. -/
structure MistakeItem where
  id : String
  text : String
  answer : Int
  skill : SkillKey
  level : Int
  misses : Nat
  lastMissedAt : Int
deriving DecidableEq, Repr

/-- `makeMistakeId(question) = question.skill + ":" + question.text` — keyed
by skill and problem text, not by the random question id. -/
def makeMistakeId (q : Question) : String := q.skill.str ++ ":" ++ q.text

/-- The `findIndex` / read-entry / `splice` sequence of `addMistakeEntry` as
one pass: the first entry whose `id` matches, paired with the list with that
entry removed; `none` when no entry matches (JS `findIndex` = −1). -/
def extractById (key : String) : List MistakeItem →
    Option (MistakeItem × List MistakeItem)
  | [] => none
  | x :: xs =>
    if x.id = key then some (x, xs)
    else (extractById key xs).map (fun p => (p.1, x :: p.2))

/-- `addMistakeEntry(items, question)`; `Date.now()` is injected as `now`.
On a fresh key a new entry with `misses = 1` is pushed to the front; on an
existing key that entry is moved to the front with `misses` incremented and
`answer`/`level`/`lastMissedAt` refreshed; either way the result is truncated
to the first `MAX_MISTAKES = 50` entries. -/
def addMistakeEntry (items : List MistakeItem) (q : Question) (now : Int) :
    List MistakeItem :=
  match extractById (makeMistakeId q) items with
  | none =>
    ({ id := makeMistakeId q, text := q.text, answer := q.answer,
       skill := q.skill, level := q.level, misses := 1, lastMissedAt := now }
      :: items).take MAX_MISTAKES
  | some (existing, next) =>
    ({ existing with
        answer := q.answer,
        level := q.level,
        misses := existing.misses + 1,
        lastMissedAt := now } :: next).take MAX_MISTAKES

/-- Two draws of the same underlying problem with different random ids. -/
def sampleMissedQ1 : Question :=
  { id := "add-111", text := "1 + 1", answer := 2, skill := .add, level := 1 }

/-- Second draw: same skill and text as `sampleMissedQ1`, different id. -/
def sampleMissedQ2 : Question :=
  { id := "add-222", text := "1 + 1", answer := 2, skill := .add, level := 1 }

/-! ### Theorems -/

theorem Stats.get_set_same (s : Stats) (k : SkillKey) (v : SkillStats) :
    (s.set k v).get k = v := by
  cases k <;> rfl

theorem Stats.get_set_ne (s : Stats) (k k' : SkillKey) (v : SkillStats)
    (h : k' ≠ k) : (s.set k v).get k' = s.get k' := by
  cases k <;> cases k' <;> first | rfl | exact absurd rfl h

theorem updateStats_get_same (s : Stats) (k : SkillKey) (c : Bool) (ms : Int) :
    (updateStats s k c ms).get k = stepSkill (s.get k) c ms ((LEVELS k).length : Int) :=
  Stats.get_set_same s k _

theorem LEVELS_length (k : SkillKey) : (LEVELS k).length = MAX_LEVEL := by
  cases k <;> rfl

/-- The history update of `stepSkill` is branch-independent: append the new
result, then keep the final `MAX_HISTORY` entries. -/
theorem stepSkill_history (cur : SkillStats) (c : Bool) (ms lm : Int) :
    (stepSkill cur c ms lm).history =
      (cur.history ++ [Result.mk c ms]).drop
        (cur.history.length + 1 - MAX_HISTORY) := by
  simp [stepSkill]

/-- A correct result always zeroes `mistakeStreak`. -/
theorem stepSkill_mistakeStreak_correct (cur : SkillStats) (ms lm : Int) :
    (stepSkill cur true ms lm).mistakeStreak = 0 := by
  simp [stepSkill]

/-- An incorrect result always zeroes `streak`. -/
theorem stepSkill_streak_wrong (cur : SkillStats) (ms lm : Int) :
    (stepSkill cur false ms lm).streak = 0 := by
  simp [stepSkill]

/-- Correct result that does not trigger the level-up rule (streak still short,
or too slow): level unchanged, streak incremented. -/
theorem stepSkill_correct_noup (cur : SkillStats) (ms lm : Int)
    (h : cur.streak + 1 < 3 ∨ getTargetMs cur.level < ms) :
    (stepSkill cur true ms lm).level = cur.level ∧
      (stepSkill cur true ms lm).streak = cur.streak + 1 := by
  simp [stepSkill, clamp]
  rcases h with h | h <;> constructor <;> intros <;> omega

/-- Correct result triggering the level-up rule below the cap: level goes up
by one and the streak is reset to 0. -/
theorem stepSkill_correct_up (cur : SkillStats) (ms lm : Int)
    (hstreak : 3 ≤ cur.streak + 1) (hms : ms ≤ getTargetMs cur.level)
    (hlo : 0 ≤ cur.level) (hhi : cur.level < lm) :
    (stepSkill cur true ms lm).level = cur.level + 1 ∧
      (stepSkill cur true ms lm).streak = 0 := by
  simp [stepSkill, clamp]
  omega

/-- Incorrect result that does not trigger the level-down rule (first miss):
level unchanged, mistake streak incremented. -/
theorem stepSkill_wrong_nodown (cur : SkillStats) (ms lm : Int)
    (h : cur.mistakeStreak + 1 < 2) :
    (stepSkill cur false ms lm).level = cur.level ∧
      (stepSkill cur false ms lm).mistakeStreak = cur.mistakeStreak + 1 := by
  simp [stepSkill, clamp]
  constructor <;> intros <;> omega

/-- Incorrect result triggering the level-down rule above the floor: level
goes down by one and the mistake streak is reset to 0. -/
theorem stepSkill_wrong_down (cur : SkillStats) (ms lm : Int)
    (hstreak : 2 ≤ cur.mistakeStreak + 1) (hlo : 1 < cur.level)
    (hhi : cur.level ≤ lm + 1) :
    (stepSkill cur false ms lm).level = cur.level - 1 ∧
      (stepSkill cur false ms lm).mistakeStreak = 0 := by
  simp [stepSkill, clamp]
  omega

/-- The committed level always stays inside `[1, levelMax]`. -/
theorem stepSkill_level_bounds (cur : SkillStats) (c : Bool) (ms lm : Int)
    (hlm : 1 ≤ lm) (h1 : 1 ≤ cur.level) (h2 : cur.level ≤ lm) :
    1 ≤ (stepSkill cur c ms lm).level ∧ (stepSkill cur c ms lm).level ≤ lm := by
  simp only [stepSkill, clamp]
  split_ifs <;> constructor <;> omega

theorem updateStats_atMostOne (s : Stats) (k : SkillKey) (c : Bool) (ms : Int)
    (h : atMostOneStreak s) : atMostOneStreak (updateStats s k c ms) := by
  intro k'
  by_cases hk : k' = k
  · subst hk
    rw [updateStats_get_same]
    cases c
    · exact Or.inl (stepSkill_streak_wrong _ _ _)
    · exact Or.inr (stepSkill_mistakeStreak_correct _ _ _)
  · rw [show (updateStats s k c ms).get k' = s.get k' from
      Stats.get_set_ne s k k' _ hk]
    exact h k'

theorem applyUpdates_atMostOne (us : List (SkillKey × Bool × Int)) (s : Stats)
    (h : atMostOneStreak s) : atMostOneStreak (applyUpdates s us) := by
  induction us generalizing s with
  | nil => exact h
  | cons u rest ih => exact ih _ (updateStats_atMostOne s u.1 u.2.1 u.2.2 h)

/-- C1: from `streak = 0` and level `L` with `1 ≤ L < MAX_LEVEL` (the data
model keeps levels in `[1, MAX_LEVEL]`), three consecutive correct results,
each within `getTargetMs L`, raise the level to exactly `L + 1` and leave the
streak at 0 after the third update. -/
theorem updateStats_three_corrects_level_up (s : Stats) (k : SkillKey)
    (L ms1 ms2 ms3 : Int)
    (hL : (s.get k).level = L) (hs : (s.get k).streak = 0)
    (h1 : 1 ≤ L) (h2 : L < (MAX_LEVEL : Int))
    (hm1 : ms1 ≤ getTargetMs L) (hm2 : ms2 ≤ getTargetMs L)
    (hm3 : ms3 ≤ getTargetMs L) :
    (((updateStats (updateStats (updateStats s k true ms1) k true ms2) k
        true ms3).get k).level = L + 1) ∧
    (((updateStats (updateStats (updateStats s k true ms1) k true ms2) k
        true ms3).get k).streak = 0) := by
  have hlen : ((LEVELS k).length : Int) = (MAX_LEVEL : Int) := by
    rw [LEVELS_length]
  rw [updateStats_get_same, updateStats_get_same, updateStats_get_same]
  set n : Int := ((LEVELS k).length : Int) with hn
  obtain ⟨c1l, c1r⟩ := stepSkill_correct_noup (s.get k) ms1 n (Or.inl (by omega))
  obtain ⟨c2l, c2r⟩ := stepSkill_correct_noup (stepSkill (s.get k) true ms1 n)
    ms2 n (Or.inl (by omega))
  obtain ⟨c3l, c3r⟩ := stepSkill_correct_up
    (stepSkill (stepSkill (s.get k) true ms1 n) true ms2 n) ms3 n
    (by omega) (by rw [c2l, c1l, hL]; exact hm3) (by omega) (by omega)
  exact ⟨by omega, c3r⟩

/-- C1 witness: the spec's own example — three fast correct `mul` answers from
the default stats end at level 2 with streak 0. -/
theorem updateStats_three_corrects_level_up_witness :
    (((updateStats (updateStats (updateStats createDefaultStats .mul true 1000)
        .mul true 1000) .mul true 1000).get .mul).level = 1 + 1) ∧
    (((updateStats (updateStats (updateStats createDefaultStats .mul true 1000)
        .mul true 1000) .mul true 1000).get .mul).streak = 0) :=
  updateStats_three_corrects_level_up createDefaultStats .mul 1 1000 1000 1000
    rfl rfl (by decide) (by decide) (by decide) (by decide) (by decide)

/-- C2 as stated is false at level 1: two consecutive misses on a fresh skill
(level 1, `mistakeStreak = 0`) neither decrement the level (it is clamped at
1, so `level - 1` is not reached) nor reset the mistake streak (the reset only
happens when the level actually changed), leaving `mistakeStreak = 2`. -/
theorem updateStats_two_wrongs_counterexample :
    ¬ ((((updateStats (updateStats createDefaultStats .add false 1000) .add
          false 1000).get .add).level =
            (createDefaultStats.get .add).level - 1) ∧
       (((updateStats (updateStats createDefaultStats .add false 1000) .add
          false 1000).get .add).mistakeStreak = 0)) := by
  decide

/-- C2 amended: for every skill whose `SkillStats` has `mistakeStreak = 0` and
level `L` with `1 < L ≤ MAX_LEVEL`, two consecutive incorrect results yield
level exactly `L - 1` and `mistakeStreak` reset to 0. -/
theorem updateStats_two_wrongs_level_down (s : Stats) (k : SkillKey)
    (L ms1 ms2 : Int)
    (hL : (s.get k).level = L) (hm : (s.get k).mistakeStreak = 0)
    (h1 : 1 < L) (h2 : L ≤ (MAX_LEVEL : Int)) :
    (((updateStats (updateStats s k false ms1) k false ms2).get k).level
        = L - 1) ∧
    (((updateStats (updateStats s k false ms1) k false ms2).get k).mistakeStreak
        = 0) := by
  have hlen : ((LEVELS k).length : Int) = (MAX_LEVEL : Int) := by
    rw [LEVELS_length]
  rw [updateStats_get_same, updateStats_get_same]
  set n : Int := ((LEVELS k).length : Int) with hn
  obtain ⟨c1l, c1r⟩ := stepSkill_wrong_nodown (s.get k) ms1 n (by omega)
  obtain ⟨c2l, c2r⟩ := stepSkill_wrong_down (stepSkill (s.get k) false ms1 n)
    ms2 n (by omega) (by omega) (by omega)
  exact ⟨by omega, c2r⟩

/-- C2 witness: from level 2 on `sub`, two misses land on level 1 with
`mistakeStreak = 0`. -/
theorem updateStats_two_wrongs_level_down_witness :
    (((updateStats (updateStats levelTwoStats .sub false 1000) .sub false
        1000).get .sub).level = 2 - 1) ∧
    (((updateStats (updateStats levelTwoStats .sub false 1000) .sub false
        1000).get .sub).mistakeStreak = 0) :=
  updateStats_two_wrongs_level_down levelTwoStats .sub 2 1000 1000
    rfl rfl (by decide) (by decide)

/-- C3 as stated is false: it demands that exactly one of
`streak`/`mistakeStreak` be nonzero, but in the initial state (reachable via
the empty update sequence) both counters are 0. -/
theorem reachable_exactly_one_counterexample :
    ¬ ((((applyUpdates createDefaultStats []).get .add).streak ≠ 0 ∧
        ((applyUpdates createDefaultStats []).get .add).mistakeStreak = 0) ∨
       (((applyUpdates createDefaultStats []).get .add).streak = 0 ∧
        ((applyUpdates createDefaultStats []).get .add).mistakeStreak ≠ 0)) := by
  decide

/-- C3 amended: in every state reachable from `createDefaultStats` by
`updateStats`, for each skill at most one of `streak`/`mistakeStreak` is
nonzero (each result zeroes the other counter). -/
theorem reachable_at_most_one_streak (us : List (SkillKey × Bool × Int))
    (k : SkillKey) :
    ((applyUpdates createDefaultStats us).get k).streak = 0 ∨
    ((applyUpdates createDefaultStats us).get k).mistakeStreak = 0 :=
  applyUpdates_atMostOne us createDefaultStats
    (by intro k'; cases k' <;> exact Or.inl rfl) k

/-- C6: the updated skill's history is the drawn result appended newest-last
with the front trimmed so at most `MAX_HISTORY = 12` entries remain; a full
history drops exactly its oldest entry. -/
theorem updateStats_history_bounded (s : Stats) (k : SkillKey) (c : Bool)
    (ms : Int) :
    ((updateStats s k c ms).get k).history.length ≤ MAX_HISTORY ∧
    ((updateStats s k c ms).get k).history =
      (s.get k).history.drop ((s.get k).history.length + 1 - MAX_HISTORY) ++
        [Result.mk c ms] ∧
    ((s.get k).history.length = MAX_HISTORY →
      ((updateStats s k c ms).get k).history =
        (s.get k).history.drop 1 ++ [Result.mk c ms]) := by
  rw [updateStats_get_same, stepSkill_history]
  refine ⟨?_, ?_, ?_⟩
  · rw [List.length_drop]
    simp only [List.length_append, List.length_cons, List.length_nil]
    omega
  · rw [List.drop_append_of_le_length (by simp only [MAX_HISTORY]; omega)]
  · intro he
    rw [List.drop_append_of_le_length (by simp only [MAX_HISTORY]; omega), he]
    norm_num [MAX_HISTORY]

/-- C6 witness: updating a full 12-entry history drops the oldest entry and
appends the new result last. -/
theorem updateStats_history_bounded_witness :
    ((updateStats fullHistoryStats .add true 5).get .add).history =
      (List.replicate 12 (Result.mk true 100)).drop 1 ++ [Result.mk true 5] :=
  (updateStats_history_bounded fullHistoryStats .add true 5).2.2 (by decide)

/-- C7: `updateStats` keeps the updated skill's level inside
`[1, MAX_LEVEL]`. -/
theorem updateStats_level_clamped (s : Stats) (k : SkillKey) (c : Bool)
    (ms : Int)
    (h1 : 1 ≤ (s.get k).level) (h2 : (s.get k).level ≤ (MAX_LEVEL : Int)) :
    1 ≤ ((updateStats s k c ms).get k).level ∧
    ((updateStats s k c ms).get k).level ≤ (MAX_LEVEL : Int) := by
  have hlen : ((LEVELS k).length : Int) = (MAX_LEVEL : Int) := by
    rw [LEVELS_length]
  rw [updateStats_get_same]
  have hb := stepSkill_level_bounds (s.get k) c ms ((LEVELS k).length : Int)
    (by omega) h1 (by omega)
  omega

/-- C7 witness: a fast correct streak at `MAX_LEVEL` stays at `MAX_LEVEL`. -/
theorem updateStats_level_clamped_witness :
    1 ≤ ((updateStats maxLevelStats .div true 100).get .div).level ∧
    ((updateStats maxLevelStats .div true 100).get .div).level
      ≤ (MAX_LEVEL : Int) :=
  updateStats_level_clamped maxLevelStats .div true 100 (by decide) (by decide)

/-- C10: `updateStats` is frame-preserving — every skill other than the
updated one keeps exactly its previous `SkillStats`. -/
theorem updateStats_frame (s : Stats) (k k' : SkillKey) (c : Bool) (ms : Int)
    (h : k' ≠ k) : (updateStats s k c ms).get k' = s.get k' :=
  Stats.get_set_ne s k k' _ h

/-- C10 witness: updating `add` leaves `sub` untouched. -/
theorem updateStats_frame_witness :
    (updateStats createDefaultStats .add true 1000).get .sub =
      createDefaultStats.get .sub :=
  updateStats_frame createDefaultStats .add .sub true 1000 (by decide)

/-- Every `sub` level spec leaves `allowNegative` unset (the table never sets
it for `sub`), for any level thanks to the index clamp. -/
theorem getLevelSpec_sub_allowNegative (level : Int) :
    (getLevelSpec SkillKey.sub level).allowNegative = none := by
  simp only [getLevelSpec]
  generalize (clamp (level - 1) 0 ((LEVELS SkillKey.sub).length - 1)).toNat = n
  rcases n with _|_|_|_|_|_|_|_|_|_|_|_|n <;> rfl

/-- C4: a generated `div` question is an exact division: the text reads
`dividend / divisor` with `divisor = max(1, a) ≥ 1`, the answer is the
quotient `b`, and `answer * divisor = dividend` with no remainder, for any
operand draw inside the level's spec. -/
theorem generateQuestion_div_exact (level : Int) (opts : Option Bool)
    (a b : Int) (uid : String)
    (ha1 : (getLevelSpec .div level).minA.getD 0 ≤ a)
    (ha2 : a ≤ (getLevelSpec .div level).maxA)
    (hb1 : (getLevelSpec .div level).minB.getD 0 ≤ b)
    (hb2 : b ≤ (getLevelSpec .div level).maxB) :
    ∃ divisor dividend : Int,
      1 ≤ divisor ∧
      (generateQuestion .div level opts a b uid).text =
        toString dividend ++ " / " ++ toString divisor ∧
      (generateQuestion .div level opts a b uid).answer = b ∧
      (generateQuestion .div level opts a b uid).answer * divisor = dividend :=
  ⟨max 1 a, max 1 a * b, le_max_left 1 a, rfl, rfl, mul_comm b (max 1 a)⟩

/-- C4 witness: level 1, draw a = 3, b = 4 (inside the level-1 div spec). -/
theorem generateQuestion_div_exact_witness :
    ∃ divisor dividend : Int,
      1 ≤ divisor ∧
      (generateQuestion .div 1 none 3 4 "").text =
        toString dividend ++ " / " ++ toString divisor ∧
      (generateQuestion .div 1 none 3 4 "").answer = 4 ∧
      (generateQuestion .div 1 none 3 4 "").answer * divisor = dividend :=
  generateQuestion_div_exact 1 none 3 4 "" (by decide) (by decide) (by decide)
    (by decide)

/-- C5: a generated `sub` question with negatives disallowed (`allowNegative`
option `false` or absent — the `sub` level specs never set it) puts the larger
drawn operand first and has non-negative answer `max(a,b) − min(a,b)`; with
`allowNegative` true the drawn order is preserved and the answer is `a − b`. -/
theorem generateQuestion_sub_negative_handling (level : Int) (a b : Int)
    (uid : String) :
    (∀ opts : Option Bool, opts = none ∨ opts = some false →
      (generateQuestion .sub level opts a b uid).answer = max a b - min a b ∧
      0 ≤ (generateQuestion .sub level opts a b uid).answer ∧
      (generateQuestion .sub level opts a b uid).text =
        toString (max a b) ++ " - " ++ toString (min a b)) ∧
    ((generateQuestion .sub level (some true) a b uid).answer = a - b ∧
     (generateQuestion .sub level (some true) a b uid).text =
       toString a ++ " - " ++ toString b) := by
  constructor
  · rintro opts (rfl | rfl)
    · have hn := getLevelSpec_sub_allowNegative level
      refine ⟨?_, ?_, ?_⟩ <;> simp [generateQuestion, hn]
    · refine ⟨?_, ?_, ?_⟩ <;> simp [generateQuestion]
  · constructor <;> simp [generateQuestion]

/-- C5 witness: draw a = 3, b = 5 with options absent — answer 2 = 5 − 3 ≥ 0,
larger operand first. -/
theorem generateQuestion_sub_negative_handling_witness :
    (generateQuestion .sub 1 none 3 5 "").answer = max 3 5 - min 3 5 ∧
    0 ≤ (generateQuestion .sub 1 none 3 5 "").answer ∧
    (generateQuestion .sub 1 none 3 5 "").text =
      toString (max (3 : Int) 5) ++ " - " ++ toString (min (3 : Int) 5) :=
  (generateQuestion_sub_negative_handling 1 3 5 "").1 none (Or.inl rfl)

theorem accuracyFromHistory_le_one (history : List Result) :
    accuracyFromHistory history ≤ 1 := by
  unfold accuracyFromHistory
  split_ifs with he
  · norm_num
  · rw [div_le_one (by positivity)]
    exact_mod_cast List.length_filter_le _ _

theorem skillScore_le_one (stats : Stats) (k : SkillKey) :
    skillScore stats k ≤ 1 := by
  unfold skillScore
  split_ifs
  · norm_num
  · exact accuracyFromHistory_le_one _

/-- C8: the skill returned by `getWeakestSkill` attains the minimum score
(history accuracy, or 0.55 when empty) over all four skills, and any skill
tying that score sits no earlier in the fixed order add, sub, mul, div — i.e.
ties resolve to the first skill; in particular on the all-empty default stats
the result is `add`. -/
theorem getWeakestSkill_spec :
    (∀ (stats : Stats) (k : SkillKey),
      skillScore stats (getWeakestSkill stats) ≤ skillScore stats k ∧
      (skillScore stats k = skillScore stats (getWeakestSkill stats) →
        skillIndex (getWeakestSkill stats) ≤ skillIndex k)) ∧
    getWeakestSkill createDefaultStats = SkillKey.add := by
  constructor
  · intro stats k
    have h1 := skillScore_le_one stats .add
    have h2 := skillScore_le_one stats .sub
    have h3 := skillScore_le_one stats .mul
    have h4 := skillScore_le_one stats .div
    simp only [getWeakestSkill, SKILL_LIST, List.foldl, List.headD]
    split_ifs <;> cases k <;>
      refine ⟨by simp_all; try linarith, fun hEq => ?_⟩ <;>
      simp_all [skillIndex] <;> linarith
  · norm_num [getWeakestSkill, SKILL_LIST, skillScore, createDefaultStats,
      Stats.get, accuracyFromHistory]

theorem extractById_cons_hit (key : String) (x : MistakeItem)
    (xs : List MistakeItem) (h : x.id = key) :
    extractById key (x :: xs) = some (x, xs) := by
  rw [extractById, if_pos h]

theorem extractById_eq_none (key : String) (l : List MistakeItem)
    (h : ∀ e ∈ l, e.id ≠ key) : extractById key l = none := by
  induction l with
  | nil => rfl
  | cons x xs ih =>
    rw [extractById, if_neg (h x (List.mem_cons_self x xs)),
      ih fun e he => h e (List.mem_cons_of_mem x he)]
    rfl

/-- C9: the mistake ledger never exceeds 50 entries, and two misses of the
same underlying problem (same skill and text, regardless of the random
question ids) merge into a single front entry with `misses = 2` and refreshed
`answer`/`level`/`lastMissedAt`, no other entry carrying that key. -/
theorem addMistakeEntry_spec :
    (∀ (items : List MistakeItem) (q : Question) (now : Int),
      (addMistakeEntry items q now).length ≤ MAX_MISTAKES) ∧
    (∀ (items : List MistakeItem) (q1 q2 : Question) (now1 now2 : Int),
      q1.skill = q2.skill → q1.text = q2.text →
      (∀ e ∈ items, e.id ≠ makeMistakeId q1) →
      ∃ e rest,
        addMistakeEntry (addMistakeEntry items q1 now1) q2 now2 = e :: rest ∧
        e.misses = 2 ∧ e.id = makeMistakeId q1 ∧ e.answer = q2.answer ∧
        e.level = q2.level ∧ e.lastMissedAt = now2 ∧
        ∀ e' ∈ rest, e'.id ≠ makeMistakeId q1) := by
  constructor
  · intro items q now
    unfold addMistakeEntry
    cases hE : extractById (makeMistakeId q) items with
    | none => exact List.length_take_le _ _
    | some p => exact List.length_take_le _ _
  · intro items q1 q2 now1 now2 hsk htx h
    have hkey : makeMistakeId q2 = makeMistakeId q1 := by
      unfold makeMistakeId
      rw [hsk, htx]
    have hE1 : extractById (makeMistakeId q1) items = none :=
      extractById_eq_none _ _ h
    have hout1 : addMistakeEntry items q1 now1 =
        { id := makeMistakeId q1, text := q1.text, answer := q1.answer,
          skill := q1.skill, level := q1.level, misses := 1,
          lastMissedAt := now1 } :: items.take 49 := by
      unfold addMistakeEntry
      rw [hE1]
      rfl
    have hout2 : addMistakeEntry (addMistakeEntry items q1 now1) q2 now2 =
        { id := makeMistakeId q1, text := q1.text, answer := q2.answer,
          skill := q1.skill, level := q2.level, misses := 2,
          lastMissedAt := now2 } :: items.take 49 := by
      rw [hout1]
      unfold addMistakeEntry
      rw [hkey, extractById_cons_hit (makeMistakeId q1)
        { id := makeMistakeId q1, text := q1.text, answer := q1.answer,
          skill := q1.skill, level := q1.level, misses := 1,
          lastMissedAt := now1 } (items.take 49) rfl]
      show _ :: (items.take 49).take 49 = _
      rw [List.take_take, Nat.min_self]
    exact ⟨_, items.take 49, hout2, rfl, rfl, rfl, rfl, rfl,
      fun e' he' => h e' (List.take_subset 49 items he')⟩

/-- C9 witness: missing the same problem twice (distinct random question ids)
leaves a single ledger entry with `misses = 2` at the head. -/
theorem addMistakeEntry_spec_witness :
    ∃ e rest,
      addMistakeEntry (addMistakeEntry [] sampleMissedQ1 10) sampleMissedQ2 20 =
        e :: rest ∧
      e.misses = 2 ∧ e.id = makeMistakeId sampleMissedQ1 ∧
      e.answer = sampleMissedQ2.answer ∧ e.level = sampleMissedQ2.level ∧
      e.lastMissedAt = 20 ∧
      ∀ e' ∈ rest, e'.id ≠ makeMistakeId sampleMissedQ1 :=
  addMistakeEntry_spec.2 [] sampleMissedQ1 sampleMissedQ2 10 20 rfl rfl
    (by simp)
